import Mathlib

/-!
# Verification of the Marauder agent core

Shallow embedding of the Marauder CLI agent (marauder/tools.py and
marauder/agent.py): the filesystem tool set, the shell executor, the
background-process supervisor, and the history compactor, together with
theorems settling the specification claims about them.

Text manipulated by the Python code (file contents, process output) is
modelled as `List Char`; small identifiers (paths, tool names, roles)
as `String`.  Machine-level effects (filesystem, child processes, JSON
(de)serialization) are modelled explicitly: filesystem operations return
a trace of the syscalls they perform, process behaviour is an explicit
outcome parameter, and the JSON library is a function parameter.
-/

/-! ## Python string primitives (on `List Char`)

`pyIn pat s` is Python's `pat in s` (substring containment; the empty
pattern is contained in every string).  `pyCount s pat` is Python's
`s.count(pat)`: non-overlapping occurrences scanned left to right, with
`s.count("") = len(s) + 1`.  `pyReplace1 s old new` is Python's
`s.replace(old, new, 1)`: the leftmost occurrence is replaced
(`s.replace("", new, 1) = new + s`).

`countFrom pat k text` counts the occurrences of the non-empty `pat` in
`text` with the first `k` characters skipped; the skip counter makes the
scan (which jumps over each match) structurally recursive. -/

def pyIn (pat : List Char) : List Char → Bool
  | [] => pat.isEmpty
  | c :: rest => pat.isPrefixOf (c :: rest) || pyIn pat rest

def countFrom (pat : List Char) : Nat → List Char → Nat
  | _, [] => 0
  | Nat.succ k, _ :: rest => countFrom pat k rest
  | 0, c :: rest =>
    if pat.isPrefixOf (c :: rest) then 1 + countFrom pat (pat.length - 1) rest
    else countFrom pat 0 rest

def pyCount (text pat : List Char) : Nat :=
  if pat.isEmpty then text.length + 1 else countFrom pat 0 text

def replace1Aux (pat rep : List Char) : List Char → List Char
  | [] => []
  | c :: rest =>
    if pat.isPrefixOf (c :: rest) then
      rep ++ (c :: rest).drop pat.length
    else
      c :: replace1Aux pat rep rest

def pyReplace1 (text pat rep : List Char) : List Char :=
  if pat.isEmpty then rep ++ text else replace1Aux pat rep text

/-! ## More Python text primitives

`splitOnChar sep s` is Python's `s.split(sep)` for a one-character
separator (`"".split(sep) = [""]`), and `joinWith sep` is
`sep.join(...)`.  Paths are `List Char` too, so that every definition
reduces inside the kernel. -/

def splitOnChar (sep : Char) : List Char → List (List Char)
  | [] => [[]]
  | c :: rest =>
    match splitOnChar sep rest with
    | [] => [[]]
    | grp :: grps => if c = sep then [] :: grp :: grps else (c :: grp) :: grps

def joinWith (sep : List Char) : List (List Char) → List Char
  | [] => []
  | [x] => x
  | x :: y :: rest => x ++ sep ++ joinWith sep (y :: rest)

/-! ## Path resolution (tools.py `_resolve`, lines 140-145)

`pyJoin` is POSIX `os.path.join` for two arguments; `normpath` is POSIX
`os.path.normpath` (purely lexical: drops empty and `.` components,
resolves `..` against preceding components, preserves a leading `/` or
`//`).  `_resolve` joins the path against the working directory,
normalizes, and accepts the result iff it *starts with* the normalized
working directory string — exactly the check
`full.startswith(os.path.normpath(work_dir))` of the source — and
raises `ValueError` otherwise. -/

inductive PyExn where
  | valueError (msg : List Char)
  | jsonDecodeError
  deriving DecidableEq, Repr

def pyJoin (a b : List Char) : List Char :=
  if "/".data.isPrefixOf b then b
  else if a = [] ∨ a.getLast? = some '/' then a ++ b
  else a ++ '/' :: b

def normpathStep (initialSlashes : Nat) (acc : List (List Char))
    (comp : List Char) : List (List Char) :=
  if comp = [] ∨ comp = ".".data then acc
  else if comp ≠ "..".data ∨ (initialSlashes = 0 ∧ acc = []) ∨
      acc.getLast? = some "..".data then
    acc ++ [comp]
  else if acc ≠ [] then acc.dropLast
  else acc

def normpath (p : List Char) : List Char :=
  if p = [] then ".".data
  else
    let initialSlashes : Nat :=
      if "/".data.isPrefixOf p then
        if "//".data.isPrefixOf p ∧ ¬ "///".data.isPrefixOf p then 2 else 1
      else 0
    let comps := splitOnChar '/' p
    let newComps := comps.foldl (normpathStep initialSlashes) []
    let res :=
      (if initialSlashes = 2 then "//".data
       else if initialSlashes = 1 then "/".data else []) ++
        joinWith "/".data newComps
    if res = [] then ".".data else res

def _resolve (work_dir path : List Char) : Except PyExn (List Char) :=
  let full := normpath (pyJoin work_dir path)
  if (normpath work_dir).isPrefixOf full then .ok full
  else .error (.valueError ("Path escapes working directory: ".data ++ path))

/-- Modelled from the spec: "every path is resolved relative to the
working directory and must remain within it after normalization".  A
resolved (already normalized) path stays within the root iff it equals
the normalized root or lives strictly below it (root plus a `/`
separator).  This is the containment predicate claim C1 quantifies
over; it is the spec's notion, deliberately distinct from the source's
`startswith` test. -/
def withinRoot (work_dir full : List Char) : Bool :=
  full = normpath work_dir ∨ ((normpath work_dir) ++ "/".data).isPrefixOf full

/-! ## Filesystem model and the filesystem tool set (tools.py 148-207)

The filesystem is a finite map from absolute paths to file contents.
Each tool returns the Python function's result paired with the trace of
filesystem syscalls it performed, so "performs no filesystem I/O" is the
statement that the trace is empty.  A raised exception is an `.error`
value (the source has no handler for `_resolve`'s `ValueError` anywhere
on the call path). -/

inductive Syscall where
  | isfile (p : List Char)
  | openRead (p : List Char)
  | openWrite (p : List Char)
  | makedirs (p : List Char)
  deriving DecidableEq, Repr

def FS := List (List Char × List Char)

def fsLookup (fs : FS) (p : List Char) : Option (List Char) :=
  match fs with
  | [] => none
  | (q, c) :: rest => if q = p then some c else fsLookup rest p

def fsSet (fs : FS) (p : List Char) (c : List Char) : FS :=
  match fs with
  | [] => [(p, c)]
  | (q, d) :: rest => if q = p then (q, c) :: rest else (q, d) :: fsSet rest p c

def read_file (fs : FS) (work_dir path : List Char) :
    Except PyExn (List Char) × List Syscall :=
  match _resolve work_dir path with
  | .error e => (.error e, [])
  | .ok full =>
    match fsLookup fs full with
    | none => (.ok ("Error: file not found: ".data ++ path), [.isfile full])
    | some text => (.ok text, [.isfile full, .openRead full])

def write_file (fs : FS) (work_dir path : List Char) (content : List Char) :
    (Except PyExn (List Char) × FS) × List Syscall :=
  match _resolve work_dir path with
  | .error e => ((.error e, fs), [])
  | .ok full =>
    ((.ok ("Wrote ".data ++ (toString content.length).data ++ " chars to ".data ++ path),
      fsSet fs full content),
     [.makedirs full, .openWrite full])

def edit_file (fs : FS) (work_dir path : List Char) (old_str new_str : List Char) :
    (Except PyExn (List Char) × FS) × List Syscall :=
  match _resolve work_dir path with
  | .error e => ((.error e, fs), [])
  | .ok full =>
    match fsLookup fs full with
    | none => ((.ok ("Error: file not found: ".data ++ path), fs), [.isfile full])
    | some text =>
      if ¬ pyIn old_str text then
        ((.ok ("Error: old_str not found in ".data ++ path), fs),
         [.isfile full, .openRead full])
      else if pyCount text old_str > 1 then
        ((.ok ("Error: old_str found ".data ++ (toString (pyCount text old_str)).data ++
               " times in ".data ++ path ++ ", must be unique".data), fs),
         [.isfile full, .openRead full])
      else
        ((.ok ("Edited ".data ++ path),
          fsSet fs full (pyReplace1 text old_str new_str)),
         [.isfile full, .openRead full, .openWrite full])

/-! ## Shell executor (tools.py `run_command`, lines 210-235)

The completed subprocess is an explicit outcome: either it timed out
(`subprocess.TimeoutExpired`) or it finished with captured stdout,
stderr and a return code.  The output post-processing is decomposed
into the source's four steps: merge the two streams (lines 216-220),
append the exit code when non-zero (221-222), default to
`"(no output)"` (223), and cap large output (225-230). -/

inductive CmdOutcome where
  | timeout
  | completed (stdout stderr : List Char) (returncode : Int)

def _mergedStreams (stdout stderr : List Char) : List Char :=
  let output := if stdout ≠ [] then stdout else []
  if stderr ≠ [] then
    output ++ (if output ≠ [] then "\n".data else []) ++ stderr
  else output

def _exitSuffix (returncode : Int) : List Char :=
  "\n(exit code: ".data ++ (toString returncode).data ++ ")".data

def _withExitCode (returncode : Int) (output : List Char) : List Char :=
  if returncode ≠ 0 then output ++ _exitSuffix returncode else output

def _orNoOutput (output : List Char) : List Char :=
  if output = [] then "(no output)".data else output

def _capCommandOutput (output : List Char) : List Char :=
  if output.length > 4000 then
    let lines := splitOnChar '\n' output
    if lines.length > 40 then
      joinWith "\n".data (lines.take 15) ++
        "\n... (".data ++ (toString (lines.length - 30)).data ++
        " lines omitted) ...\n".data ++
        joinWith "\n".data (lines.drop (lines.length - 15))
    else
      output.take 4000 ++ "\n...(output truncated)".data
  else output

def timeoutMessage : List Char :=
  ("Error: command timed out (60s limit). If this is a long-running process " ++
   "(dev server, watcher), use run_background instead.").data

def run_command (outcome : CmdOutcome) : List Char :=
  match outcome with
  | .timeout => timeoutMessage
  | .completed stdout stderr rc =>
    _capCommandOutput (_orNoOutput (_withExitCode rc (_mergedStreams stdout stderr)))

/-! ## Tool dispatch (tools.py `execute_tool`, lines 395-414)

`TOOL_MAP` is modelled by its key set plus an abstract handler function
(the per-tool lambdas of lines 396-404).  `json.loads` is a parameter
whose failure (`json.JSONDecodeError`) is an `.error`; crucially, the
source calls it *outside any try block*, so the model propagates that
error instead of converting it to a result string.  The unknown-tool
message of line 413 wraps the name in single quotes in the source;
the quote characters are elided here. -/

def TOOL_MAP_keys : List String :=
  ["read_file", "write_file", "edit_file", "list_files", "run_command",
   "run_background", "check_background", "stop_background", "list_background"]

def execute_tool {Args : Type}
    (handler : String → Args → Except PyExn (List Char))
    (jsonLoads : List Char → Except PyExn Args)
    (name : String) (arguments : List Char) : Except PyExn (List Char) :=
  match jsonLoads arguments with
  | .error e => .error e
  | .ok args =>
    if TOOL_MAP_keys.contains name then handler name args
    else .ok ("Error: unknown tool ".data ++ name.data)

/-! ## Background process supervisor (tools.py lines 238-392)

A tracked process is a registry entry keyed by PID.  Liveness
(`proc.poll() is None`), the exit code, and whether a later
`terminate()` would be honoured within the 5-second grace window
(`gracefulStop`) are snapshots of the child process supplied as data.
The model assumes the OS-level `terminate`/`kill`/`wait` calls of
`stop_background` do not themselves raise (SIGKILL reaps within the
final 3-second wait), i.e. the `except Exception` branch of lines
369-370 is not modelled. -/

structure BgProc where
  command : String
  alive : Bool
  returncode : Int
  gracefulStop : Bool
  outputBuf : List (List Char)
  startedAt : Nat
  deriving DecidableEq, Repr

abbrev Registry := List (Nat × BgProc)

def regLookup (reg : Registry) (pid : Nat) : Option BgProc :=
  match reg with
  | [] => none
  | (q, e) :: rest => if q = pid then some e else regLookup rest pid

def regErase (reg : Registry) (pid : Nat) : Registry :=
  reg.filter (fun e => e.1 ≠ pid)

def regInsert (reg : Registry) (pid : Nat) (e : BgProc) : Registry :=
  match reg with
  | [] => [(pid, e)]
  | (q, d) :: rest =>
    if q = pid then (q, e) :: rest else (q, d) :: regInsert rest pid e

/-! ### Output buffering (`_read_output` lines 244-256, `_read_stderr` 258-268)

Each arriving line is appended to the shared buffer; if the buffer then
holds more than 500 lines it is cut back to its most recent 300.
`_read_stderr` appends the same way but tags the line first. -/

def bufAppend (buf : List (List Char)) (line : List Char) : List (List Char) :=
  buf ++ [line]

def bufTruncate (buf : List (List Char)) : List (List Char) :=
  if buf.length > 500 then buf.drop (buf.length - 300) else buf

def bufStep (buf : List (List Char)) (line : List Char) : List (List Char) :=
  bufTruncate (bufAppend buf line)

def stderrTag (line : List Char) : List Char :=
  "[stderr] ".data ++ line

/-! ### `run_background` (lines 271-320) -/

structure SpawnOutcome where
  pid : Nat
  aliveAfterWait : Bool
  returncode : Int
  captured : List (List Char)
  gracefulStop : Bool
  deriving DecidableEq, Repr

def statusOf (alive : Bool) (rc : Int) : List Char :=
  if alive then "RUNNING".data
  else "EXITED (code: ".data ++ (toString rc).data ++ ")".data

structure RBResult where
  pid : Nat
  waited : Nat
  statusLine : List Char
  initialOutput : List Char
  crashFlagged : Bool
  deriving DecidableEq, Repr

def run_background (reg : Registry) (command : String) (wait_seconds : Nat)
    (spawn : Except (List Char) SpawnOutcome) (now : Nat) :
    Except (List Char) RBResult × Registry :=
  match spawn with
  | .error e => (.error ("Error starting process: ".data ++ e), reg)
  | .ok o =>
    let entry : BgProc :=
      { command := command, alive := o.aliveAfterWait, returncode := o.returncode,
        gracefulStop := o.gracefulStop, outputBuf := o.captured, startedAt := now }
    (.ok { pid := o.pid,
           waited := min wait_seconds 30,
           statusLine := statusOf o.aliveAfterWait o.returncode,
           initialOutput := o.captured.flatten,
           crashFlagged := !o.aliveAfterWait && o.returncode != 0 },
     regInsert reg o.pid entry)

/-! ### `check_background` (lines 323-346) -/

inductive CheckResult where
  | notTracked (msg : List Char)
  | info (statusLine : List Char) (uptime : Nat) (recent : List (List Char))
  deriving DecidableEq, Repr

def check_background (reg : Registry) (pid : Nat) (now : Nat) :
    CheckResult × Registry :=
  match regLookup reg pid with
  | none =>
    (.notTracked ("Error: no tracked process with PID ".data ++
       (toString pid).data ++ ". Use list_background to see active processes.".data),
     reg)
  | some e =>
    (.info (statusOf e.alive e.returncode) (now - e.startedAt)
       (e.outputBuf.drop (e.outputBuf.length - 50)),
     reg)

/-! ### `stop_background` (lines 349-375) -/

inductive StopResult where
  | notTracked (msg : List Char)
  | alreadyExited (code : Int)
  | stopped (graceful : Bool)
  deriving DecidableEq, Repr

def stop_background (reg : Registry) (pid : Nat) : StopResult × Registry :=
  match regLookup reg pid with
  | none =>
    (.notTracked ("Error: no tracked process with PID ".data ++
       (toString pid).data ++ ".".data),
     reg)
  | some e =>
    if e.alive = false then (.alreadyExited e.returncode, regErase reg pid)
    else (.stopped e.gracefulStop, regErase reg pid)

/-! ### `list_background` (lines 378-392)

One output line per tracked entry, keyed here by the PID it reports;
the source's short status `EXITED (code)` differs from the long form
used by `run_background`/`check_background`. -/

def list_background (reg : Registry) (now : Nat) : List (Nat × List Char) :=
  reg.map (fun e =>
    (e.1,
     "  PID ".data ++ (toString e.1).data ++ " | ".data ++
       (if e.2.alive then "RUNNING".data
        else "EXITED (".data ++ (toString e.2.returncode).data ++ ")".data) ++
       " | ".data ++ (toString (now - e.2.startedAt)).data ++ "s | ".data ++
       e.2.command.data))

/-! ## Conversation history (agent.py)

A message is the dictionary the agent stores: role, text content, the
tool calls an assistant message carries (id, function name, serialized
argument string), and the `tool_call_id` of a tool-result message. -/

structure ToolCall where
  id : String
  fnName : String
  arguments : List Char
  deriving DecidableEq, Repr

structure Message where
  role : String
  content : List Char
  toolCalls : List ToolCall
  toolCallId : Option String
  deriving DecidableEq, Repr

def MAX_HISTORY_MESSAGES : Nat := 30
def MAX_TOOL_RESULT_CHARS : Nat := 800
def MAX_OLD_ASSISTANT_CHARS : Nat := 300
def MAX_TOOL_ARGS_CHARS : Nat := 200

/-! ### Hard trim (`_trim_history`, agent.py lines 65-72)

Histories at or below the message ceiling pass through; longer ones
keep the first message, a synthetic system marker, and the most recent
`MAX_HISTORY_MESSAGES - 1` messages. -/

def trimMarker : Message :=
  { role := "system",
    content := "[Earlier conversation trimmed for context efficiency]".data,
    toolCalls := [], toolCallId := none }

def _trim_history (history : List Message) : List Message :=
  if history.length ≤ MAX_HISTORY_MESSAGES then history
  else
    history.take 1 ++ trimMarker ::
      history.drop (history.length - (MAX_HISTORY_MESSAGES - 1))

/-! ### Soft truncation (`_truncate_tool_results`, agent.py lines 81-155)

Applied to a fresh output list (the source copies each dict before
modifying it); messages with index at least `total - 4` are passed
through untouched, older ones are compacted by role.  The JSON library
used to rewrite `write_file`/`edit_file` arguments is a pair of
parameters: `jloads` (returning `none` on a parse failure, which the
source catches) and `jdumps`; the parsed argument object is a
string-valued dictionary, which covers every key the code touches. -/

abbrev JsonArgs := List (String × List Char)

def dictGet (args : JsonArgs) (k : String) : List Char :=
  match args with
  | [] => []
  | (q, v) :: rest => if q = k then v else dictGet rest k

def dictSet (args : JsonArgs) (k : String) (v : List Char) : JsonArgs :=
  match args with
  | [] => [(k, v)]
  | (q, w) :: rest =>
    if q = k then (q, v) :: rest else (q, w) :: dictSet rest k v

def _truncToolContent (content : List Char) : List Char :=
  if content.length > MAX_TOOL_RESULT_CHARS then
    let lines := splitOnChar '\n' content
    if lines.length > 10 then
      (joinWith "\n".data
        (lines.take 5 ++
          ["... (".data ++ (toString (lines.length - 10)).data ++
            " lines omitted) ...".data] ++
          lines.drop (lines.length - 5))).take MAX_TOOL_RESULT_CHARS
    else content.take MAX_TOOL_RESULT_CHARS ++ "...(truncated)".data
  else content

def _compressToolCall (jloads : List Char → Option JsonArgs)
    (jdumps : JsonArgs → List Char) (tc : ToolCall) : ToolCall :=
  if tc.fnName = "write_file" ∧ tc.arguments.length > MAX_TOOL_ARGS_CHARS then
    match jloads tc.arguments with
    | some args =>
      { tc with arguments := jdumps (dictSet args "content"
          ("[".data ++ (toString (dictGet args "content").length).data ++
            " chars written]".data)) }
    | none =>
      { tc with arguments := tc.arguments.take MAX_TOOL_ARGS_CHARS ++ "...".data }
  else if tc.fnName = "edit_file" ∧ tc.arguments.length > MAX_TOOL_ARGS_CHARS then
    match jloads tc.arguments with
    | some args =>
      let args2 := dictSet args "old_str" ((dictGet args "old_str").take 60 ++ "...".data)
      let args3 := dictSet args2 "new_str" ((dictGet args "new_str").take 60 ++ "...".data)
      { tc with arguments := jdumps args3 }
    | none =>
      { tc with arguments := tc.arguments.take MAX_TOOL_ARGS_CHARS ++ "...".data }
  else if tc.arguments.length > MAX_TOOL_ARGS_CHARS then
    { tc with arguments := tc.arguments.take MAX_TOOL_ARGS_CHARS ++ "...".data }
  else tc

def _compactOldMessage (jloads : List Char → Option JsonArgs)
    (jdumps : JsonArgs → List Char) (msg : Message) : Message :=
  if msg.role = "tool" then
    { msg with content := _truncToolContent msg.content }
  else if msg.role = "assistant" then
    { msg with
      content :=
        if msg.content.length > MAX_OLD_ASSISTANT_CHARS then
          msg.content.take MAX_OLD_ASSISTANT_CHARS ++ "...".data
        else msg.content,
      toolCalls := msg.toolCalls.map (_compressToolCall jloads jdumps) }
  else msg

def _truncate_tool_results (jloads : List Char → Option JsonArgs)
    (jdumps : JsonArgs → List Char) (history : List Message) : List Message :=
  history.enum.map (fun im =>
    if history.length ≤ im.1 + 4 then im.2
    else _compactOldMessage jloads jdumps im.2)

/-- Sample live tracked process used by concrete witnesses. -/
def sampleProc : BgProc :=
  { command := "python app.py", alive := true, returncode := 0,
    gracefulStop := true, outputBuf := [], startedAt := 2 }

/-- Sample tracked process that has already exited naturally. -/
def exitedProc : BgProc :=
  { command := "echo hi", alive := false, returncode := 3,
    gracefulStop := true, outputBuf := ["hi\n".data], startedAt := 1 }

/-- Large single-line command output: 4001 copies of `a`. -/
def bigOutput : List Char := List.replicate 4001 'a'

/-! ## Claim theorems -/

/-! ## Sanity checks: concrete probes of the Python semantics -/

example : pyCount "hello".data "l".data = 2 := by decide
example : pyCount "aaaa".data "aa".data = 2 := by decide
example : pyCount "abc".data "".data = 4 := by decide
example : pyIn "".data "abc".data = true := by decide
example : pyIn "bc".data "abc".data = true := by decide
example : pyIn "bd".data "abc".data = false := by decide
example : pyReplace1 "ababab".data "ab".data "X".data = "Xabab".data := by decide
example : pyReplace1 "abc".data "".data "X".data = "Xabc".data := by decide
example : splitOnChar '/' "a//b".data = ["a".data, "".data, "b".data] := by decide
example : splitOnChar '/' "".data = ["".data] := by decide
example : splitOnChar '/' "/a".data = ["".data, "a".data] := by decide
example : joinWith "/".data ["a".data, "".data, "b".data] = "a//b".data := by decide
example : normpath "/w/../wx/f".data = "/wx/f".data := by decide
example : normpath "/a/b/./c//d/../e".data = "/a/b/c/e".data := by decide
example : normpath "a/../../b".data = "../b".data := by decide
example : normpath "/..".data = "/".data := by decide
example : normpath "".data = ".".data := by decide
example : _resolve "/w".data "a/b.txt".data = .ok "/w/a/b.txt".data := rfl
example : _resolve "/w".data "../x".data =
    .error (.valueError "Path escapes working directory: ../x".data) := rfl
example : _resolve "/w".data "../wx/f".data = .ok "/wx/f".data := rfl
example : withinRoot "/w".data "/w/a.txt".data = true := by decide
example : withinRoot "/w".data "/w".data = true := by decide
example : withinRoot "/w".data "/wx/f".data = false := by decide
example :
    (edit_file [("/w/a.txt".data, "hello".data)] "/w".data "a.txt".data
      "ell".data "ipp".data).1 =
      (.ok "Edited a.txt".data, [("/w/a.txt".data, "hippo".data)]) := rfl
example :
    (edit_file [("/w/a.txt".data, "hello".data)] "/w".data "a.txt".data
      "l".data "L".data).1.1 =
      .ok "Error: old_str found 2 times in a.txt, must be unique".data := rfl
example :
    (read_file [] "/w".data "../x".data) =
      (.error (.valueError "Path escapes working directory: ../x".data), []) := rfl
example : run_command (.completed "ok".data [] 0) = "ok".data := rfl
example : run_command (.completed "a".data "b".data 0) = "a\nb".data := rfl
example : run_command (.completed [] "b".data 0) = "b".data := rfl
example : run_command (.completed [] [] 0) = "(no output)".data := rfl
example : run_command (.completed "a".data [] 2) = "a\n(exit code: 2)".data := rfl
example : run_command (.completed [] [] 1) = "\n(exit code: 1)".data := rfl

/-! Facts connecting `pyIn`, `pyCount` and `pyReplace1`. -/

theorem pyIn_iff_countFrom_ne_zero (pat : List Char) (hp : pat ≠ []) :
    ∀ text : List Char, pyIn pat text = true ↔ countFrom pat 0 text ≠ 0 := by
  intro text
  induction text with
  | nil =>
    simp [pyIn, countFrom, List.isEmpty_iff, hp]
  | cons c rest ih =>
    by_cases h : pat.isPrefixOf (c :: rest)
    · simp [pyIn, h, countFrom]
    · simp only [pyIn, h, Bool.false_or, countFrom, if_neg h]
      exact ih

theorem replace1_of_countFrom_one (pat rep : List Char) :
    ∀ text : List Char, countFrom pat 0 text = 1 →
      ∃ pre suf, text = pre ++ pat ++ suf ∧
        replace1Aux pat rep text = pre ++ rep ++ suf := by
  intro text
  induction text with
  | nil => intro h; simp [countFrom] at h
  | cons c rest ih =>
    intro h
    by_cases hpre : pat.isPrefixOf (c :: rest)
    · have hdecomp : ∃ t, pat ++ t = c :: rest :=
        List.isPrefixOf_iff_prefix.mp hpre
      obtain ⟨t, ht⟩ := hdecomp
      refine ⟨[], t, ?_, ?_⟩
      · simp [← ht]
      · have hdrop : (c :: rest).drop pat.length = t := by
          rw [← ht, List.drop_left]
        simp [replace1Aux, hpre, hdrop]
    · rw [countFrom, if_neg hpre] at h
      obtain ⟨pre, suf, hsplit, hrep⟩ := ih h
      refine ⟨c :: pre, suf, ?_, ?_⟩
      · simp [hsplit]
      · simp [replace1Aux, hpre, hrep]

/-- C1: the claim says every filesystem tool returns a `PathEscape`
error and performs no I/O whenever the resolved path escapes the
working-directory root after normalization.  The code is wrong: its
containment check is a bare string-prefix test
(`full.startswith(normpath(work_dir))`) with no separator, so the path
`../wx/f` resolved against working directory `/w` normalizes to
`/wx/f` — outside the root — yet passes the check, and `read_file`
goes on to perform filesystem syscalls and return the out-of-root
file's contents. -/
theorem c1_resolve_accepts_escaping_path :
    _resolve "/w".data "../wx/f".data = .ok "/wx/f".data ∧
    withinRoot "/w".data "/wx/f".data = false ∧
    read_file [("/wx/f".data, "secret".data)] "/w".data "../wx/f".data =
      (.ok "secret".data, [.isfile "/wx/f".data, .openRead "/wx/f".data]) ∧
    (write_file [] "/w".data "../wx/f".data "x".data).1.2 =
      [("/wx/f".data, "x".data)] := by
  refine ⟨rfl, by decide, rfl, rfl⟩

/-- C3: the claim says `execute_tool` never raises: unknown tool names
become error-kind result strings and argument strings that fail to
parse become tool-result error strings.  The code parses the arguments
with `json.loads` outside any try block (tools.py line 410), and
neither `execute_tool` nor the tool loop of `run_agent` catches the
resulting `json.JSONDecodeError`, so a malformed argument string
propagates as an uncaught exception (here: the parse failure surfaces
as `.error`, not as a result string), aborting the session. -/
theorem c3_malformed_arguments_raise :
    @execute_tool Unit (fun _ _ => .ok [])
      (fun _ => .error .jsonDecodeError) "read_file" "not json".data =
      .error .jsonDecodeError := rfl

theorem bufStep_length_le (buf : List (List Char)) (line : List Char) :
    (bufStep buf line).length ≤ 500 := by
  unfold bufStep bufTruncate bufAppend
  by_cases hlen : (buf ++ [line]).length > 500
  · simp only [if_pos hlen, List.length_drop]
    omega
  · simp only [if_neg hlen]
    omega

theorem foldl_bufStep_length_le (lines : List (List Char)) :
    ∀ buf : List (List Char), buf.length ≤ 500 →
      (lines.foldl bufStep buf).length ≤ 500 := by
  induction lines with
  | nil => intro buf h; simpa using h
  | cons l rest ih =>
    intro buf _
    simp only [List.foldl_cons]
    exact ih (bufStep buf l) (bufStep_length_le buf l)

/-- C4: after any sequence of lines consumed by the reader tasks the
output buffer holds at most 500 lines, and whenever appending a line
pushes the buffer past that cap the buffer is immediately cut to
exactly the most recent 300 lines (tools.py `_read_output` lines
244-256 / `_read_stderr` 258-268; both perform the same
append-then-truncate step, stderr merely tagging the line first). -/
theorem c4_output_buffer_invariant :
    (∀ lines : List (List Char), (lines.foldl bufStep []).length ≤ 500) ∧
    (∀ (buf : List (List Char)) (line : List Char),
      (bufAppend buf line).length > 500 →
        bufStep buf line =
          (bufAppend buf line).drop ((bufAppend buf line).length - 300) ∧
        (bufStep buf line).length = 300) := by
  constructor
  · intro lines
    exact foldl_bufStep_length_le lines [] (by simp)
  · intro buf line h
    have hstep : bufStep buf line =
        (bufAppend buf line).drop ((bufAppend buf line).length - 300) := by
      unfold bufStep bufTruncate
      rw [if_pos h]
    refine ⟨hstep, ?_⟩
    rw [hstep]
    simp only [List.length_drop]
    unfold bufAppend at h ⊢
    simp only [List.length_append, List.length_cons] at h ⊢
    omega

set_option maxRecDepth 4000 in
/-- C4 witness: a concrete buffer at the 500-line cap overflows on the
next appended line and is cut to its most recent 300 lines. -/
theorem c4_output_buffer_invariant_witness :
    bufStep (List.replicate 500 "x".data) "y".data =
      (bufAppend (List.replicate 500 "x".data) "y".data).drop
        ((bufAppend (List.replicate 500 "x".data) "y".data).length - 300) ∧
    (bufStep (List.replicate 500 "x".data) "y".data).length = 300 :=
  c4_output_buffer_invariant.2 (List.replicate 500 "x".data) "y".data (by decide)

theorem pyIn_empty_pat (text : List Char) : pyIn [] text = true := by
  cases text <;> simp [pyIn, List.isPrefixOf]

theorem pyCount_of_ne_nil (text pat : List Char) (hp : pat ≠ []) :
    pyCount text pat = countFrom pat 0 text := by
  simp [pyCount, List.isEmpty_iff, hp]

theorem pyIn_true_of_pyCount_ne_zero (text pat : List Char)
    (h : pyCount text pat ≠ 0) : pyIn pat text = true := by
  by_cases hp : pat = []
  · subst hp; exact pyIn_empty_pat text
  · rw [pyCount_of_ne_nil text pat hp] at h
    exact (pyIn_iff_countFrom_ne_zero pat hp text).mpr h

theorem pyIn_false_of_pyCount_zero (text pat : List Char)
    (h : pyCount text pat = 0) : pyIn pat text = false := by
  by_cases hp : pat = []
  · subst hp; simp [pyCount] at h
  · rw [pyCount_of_ne_nil text pat hp] at h
    cases hpy : pyIn pat text
    · rfl
    · exact absurd h ((pyIn_iff_countFrom_ne_zero pat hp text).mp hpy)

theorem pyReplace1_decomp (text pat rep : List Char) (h : pyCount text pat = 1) :
    ∃ pre suf, text = pre ++ pat ++ suf ∧
      pyReplace1 text pat rep = pre ++ rep ++ suf := by
  by_cases hp : pat = []
  · subst hp
    have htext : text = [] := by
      simpa [pyCount] using h
    subst htext
    exact ⟨[], [], by simp, by simp [pyReplace1]⟩
  · rw [pyCount_of_ne_nil text pat hp] at h
    obtain ⟨pre, suf, hsplit, hrep⟩ := replace1_of_countFrom_one pat rep text h
    refine ⟨pre, suf, hsplit, ?_⟩
    rw [pyReplace1, if_neg (by simpa [List.isEmpty_iff] using hp)]
    exact hrep

/-- C2: `edit_file` on an existing file with content `text` returns the
`NotFound` error result when `old_str` does not occur in `text`
(leaving the filesystem unchanged), returns the `Ambiguous` error
result when `old_str` occurs more than once (unchanged filesystem),
and when `old_str` occurs exactly once rewrites the file to
`pre ++ new_str ++ suf` where `text = pre ++ old_str ++ suf` at the
unique occurrence — byte-for-byte identical outside the replaced
segment (tools.py `edit_file`, lines 164-178). -/
theorem c2_edit_file_unique_replace (fs : FS)
    (work_dir path full old_str new_str text : List Char)
    (hres : _resolve work_dir path = .ok full)
    (hfile : fsLookup fs full = some text) :
    (pyCount text old_str = 0 →
      edit_file fs work_dir path old_str new_str =
        ((.ok ("Error: old_str not found in ".data ++ path), fs),
         [.isfile full, .openRead full])) ∧
    (pyCount text old_str > 1 →
      edit_file fs work_dir path old_str new_str =
        ((.ok ("Error: old_str found ".data ++
                (toString (pyCount text old_str)).data ++
                " times in ".data ++ path ++ ", must be unique".data), fs),
         [.isfile full, .openRead full])) ∧
    (pyCount text old_str = 1 →
      ∃ pre suf, text = pre ++ old_str ++ suf ∧
        edit_file fs work_dir path old_str new_str =
          ((.ok ("Edited ".data ++ path), fsSet fs full (pre ++ new_str ++ suf)),
           [.isfile full, .openRead full, .openWrite full])) := by
  refine ⟨?_, ?_, ?_⟩
  · intro h0
    have hin : pyIn old_str text = false := pyIn_false_of_pyCount_zero text old_str h0
    simp [edit_file, hres, hfile, hin]
  · intro h1
    have hin : pyIn old_str text = true :=
      pyIn_true_of_pyCount_ne_zero text old_str (by omega)
    simp [edit_file, hres, hfile, hin, h1]
  · intro h1
    have hin : pyIn old_str text = true :=
      pyIn_true_of_pyCount_ne_zero text old_str (by omega)
    obtain ⟨pre, suf, hsplit, hrep⟩ := pyReplace1_decomp text old_str new_str h1
    refine ⟨pre, suf, hsplit, ?_⟩
    simp [edit_file, hres, hfile, hin, h1, hrep]

/-- C2 witness: editing `hello` with the unique occurrence of `ell`
replaced by `ipp` rewrites the file to `hippo`. -/
theorem c2_edit_file_unique_replace_witness :
    ∃ pre suf, "hello".data = pre ++ "ell".data ++ suf ∧
      edit_file [("/w/a.txt".data, "hello".data)] "/w".data "a.txt".data
          "ell".data "ipp".data =
        ((.ok ("Edited ".data ++ "a.txt".data),
          fsSet [("/w/a.txt".data, "hello".data)] "/w/a.txt".data
            (pre ++ "ipp".data ++ suf)),
         [.isfile "/w/a.txt".data, .openRead "/w/a.txt".data,
          .openWrite "/w/a.txt".data]) :=
  (c2_edit_file_unique_replace [("/w/a.txt".data, "hello".data)]
      "/w".data "a.txt".data "/w/a.txt".data "ell".data "ipp".data "hello".data
      rfl rfl).2.2 (by decide)

theorem regLookup_erase (reg : Registry) (pid : Nat) :
    regLookup (regErase reg pid) pid = none := by
  induction reg with
  | nil => rfl
  | cons hd tl ih =>
    by_cases h : hd.1 = pid
    · simpa [regErase, h] using ih
    · simpa [regErase, regLookup, h] using ih

theorem regLookup_insert (reg : Registry) (pid : Nat) (e : BgProc) :
    regLookup (regInsert reg pid e) pid = some e := by
  induction reg with
  | nil => simp [regInsert, regLookup]
  | cons hd tl ih =>
    by_cases h : hd.1 = pid
    · simp [regInsert, regLookup, h]
    · simp [regInsert, regLookup, h]
      exact ih

theorem pid_not_mem_list_background_erase (reg : Registry) (pid now : Nat) :
    pid ∉ (list_background (regErase reg pid) now).map Prod.fst := by
  intro hmem
  simp only [list_background, List.map_map, List.mem_map, Function.comp] at hmem
  obtain ⟨e, he, hfst⟩ := hmem
  rw [regErase, List.mem_filter] at he
  have hne := he.2
  simp only [decide_eq_true_eq] at hne
  exact hne hfst

theorem pid_mem_list_background_of_lookup (reg : Registry) (pid now : Nat)
    (e : BgProc) (h : regLookup reg pid = some e) :
    pid ∈ (list_background reg now).map Prod.fst := by
  induction reg with
  | nil => simp [regLookup] at h
  | cons hd tl ih =>
    by_cases hq : hd.1 = pid
    · simp [list_background, hq]
    · rw [regLookup, if_neg hq] at h
      simp only [list_background, List.map_map, List.map_cons, List.mem_cons]
      right
      simpa [list_background, List.map_map] using ih h

/-- C5: `stop_background` (tools.py lines 349-375) on a PID that is not
tracked returns the error result and leaves the registry unchanged; on
a tracked process that has already exited it reports already-exited
(not an error) and removes the PID; on a tracked live process it drives
the process to a terminal state — graceful termination if the process
honours `terminate()` within the 5-second grace window, a forced kill
otherwise — and removes the PID from tracking, so the PID no longer
appears in `list_background` output. -/
theorem c5_stop_background_lifecycle (reg : Registry) (pid now : Nat) :
    (regLookup reg pid = none →
      stop_background reg pid =
        (.notTracked ("Error: no tracked process with PID ".data ++
           (toString pid).data ++ ".".data), reg)) ∧
    (∀ e : BgProc, regLookup reg pid = some e → e.alive = false →
      stop_background reg pid = (.alreadyExited e.returncode, regErase reg pid) ∧
      regLookup (stop_background reg pid).2 pid = none ∧
      pid ∉ (list_background (stop_background reg pid).2 now).map Prod.fst) ∧
    (∀ e : BgProc, regLookup reg pid = some e → e.alive = true →
      stop_background reg pid = (.stopped e.gracefulStop, regErase reg pid) ∧
      regLookup (stop_background reg pid).2 pid = none ∧
      pid ∉ (list_background (stop_background reg pid).2 now).map Prod.fst) := by
  refine ⟨?_, ?_, ?_⟩
  · intro hnone
    simp [stop_background, hnone]
  · intro e he hdead
    have hstop : stop_background reg pid = (.alreadyExited e.returncode, regErase reg pid) := by
      simp [stop_background, he, hdead]
    refine ⟨hstop, ?_, ?_⟩
    · rw [hstop]; exact regLookup_erase reg pid
    · rw [hstop]; exact pid_not_mem_list_background_erase reg pid now
  · intro e he halive
    have hstop : stop_background reg pid = (.stopped e.gracefulStop, regErase reg pid) := by
      simp [stop_background, he, halive]
    refine ⟨hstop, ?_, ?_⟩
    · rw [hstop]; exact regLookup_erase reg pid
    · rw [hstop]; exact pid_not_mem_list_background_erase reg pid now

/-- C5 witness: stopping a live tracked process removes its PID; the
concrete registry tracks PID 7 as alive. -/
theorem c5_stop_background_lifecycle_witness :
    stop_background [(7, sampleProc)] 7 =
      (.stopped true, regErase [(7, sampleProc)] 7) ∧
    regLookup (stop_background [(7, sampleProc)] 7).2 7 = none ∧
    7 ∉ (list_background (stop_background [(7, sampleProc)] 7).2 9).map Prod.fst := by
  have h := (c5_stop_background_lifecycle [(7, sampleProc)] 7 9).2.2 sampleProc rfl rfl
  exact ⟨by simpa [sampleProc] using h.1, h.2.1, h.2.2⟩

/-- C6 counterexample: the claim says the returned result flags a
startup crash *whenever* the spawned process has already exited by the
end of the initial wait.  A process that exits with code 0 during the
wait (e.g. a short `echo`) is reported as `EXITED (code: 0)` but the
crash flag is NOT set: the source (tools.py line 317) flags a crash
only when `returncode != 0`. -/
theorem c6_exit_zero_not_flagged :
    (run_background [] "echo hi" 5
        (.ok { pid := 7, aliveAfterWait := false, returncode := 0,
               captured := ["hi\n".data], gracefulStop := true }) 0).1 =
      .ok { pid := 7, waited := 5, statusLine := "EXITED (code: 0)".data,
            initialOutput := "hi\n".data, crashFlagged := false } := rfl

/-- C6 (amended): for every command and `wait_seconds`, `run_background`
blocks the caller for `min(wait_seconds, 30)` seconds, registers the
process under its PID in the tracking registry (also when it has
already exited), and returns its status plus the output captured so
far; the returned result flags a startup crash exactly when the
spawned process has already exited by the end of the initial wait
*with a non-zero exit code* (tools.py lines 271-320). -/
theorem c6_run_background_registers (reg : Registry) (cmd : String)
    (wait now : Nat) (o : SpawnOutcome) :
    ∃ r : RBResult, (run_background reg cmd wait (.ok o) now).1 = .ok r ∧
      r.pid = o.pid ∧
      r.waited = min wait 30 ∧
      r.waited ≤ 30 ∧
      r.statusLine = statusOf o.aliveAfterWait o.returncode ∧
      r.initialOutput = o.captured.flatten ∧
      (r.crashFlagged = true ↔ o.aliveAfterWait = false ∧ o.returncode ≠ 0) ∧
      regLookup (run_background reg cmd wait (.ok o) now).2 o.pid =
        some { command := cmd, alive := o.aliveAfterWait,
               returncode := o.returncode, gracefulStop := o.gracefulStop,
               outputBuf := o.captured, startedAt := now } := by
  refine ⟨_, rfl, rfl, rfl, Nat.min_le_right wait 30, rfl, rfl, ?_, ?_⟩
  · simp [Bool.and_eq_true, Bool.not_eq_true', bne_iff_ne]
  · exact regLookup_insert reg o.pid _

/-- C10: the background registry is mutated only by `run_background`
(inserting the new PID, also when the process already exited during
the startup wait) and `stop_background` (deleting); `check_background`
and `list_background` leave it untouched, so a naturally-exited
process stays tracked and is reported with EXITED status by
`check_background` and `list_background` until `stop_background`
removes its PID (tools.py lines 294-304, 323-346, 349-360, 378-392). -/
theorem c10_exited_process_stays_tracked (reg : Registry) (pid now : Nat) :
    ((check_background reg pid now).2 = reg) ∧
    (∀ e : BgProc, regLookup reg pid = some e → e.alive = false →
      (check_background reg pid now).1 =
        .info ("EXITED (code: ".data ++ (toString e.returncode).data ++ ")".data)
          (now - e.startedAt) (e.outputBuf.drop (e.outputBuf.length - 50)) ∧
      pid ∈ (list_background reg now).map Prod.fst ∧
      regLookup (stop_background reg pid).2 pid = none) ∧
    (∀ (cmd : String) (wait : Nat) (o : SpawnOutcome),
      regLookup (run_background reg cmd wait (.ok o) now).2 o.pid =
        some { command := cmd, alive := o.aliveAfterWait,
               returncode := o.returncode, gracefulStop := o.gracefulStop,
               outputBuf := o.captured, startedAt := now }) := by
  refine ⟨?_, ?_, ?_⟩
  · cases hl : regLookup reg pid <;> simp [check_background, hl]
  · intro e he hdead
    refine ⟨?_, ?_, ?_⟩
    · simp [check_background, he, statusOf, hdead]
    · exact pid_mem_list_background_of_lookup reg pid now e he
    · have : stop_background reg pid = (.alreadyExited e.returncode, regErase reg pid) := by
        simp [stop_background, he, hdead]
      rw [this]
      exact regLookup_erase reg pid
  · intro cmd wait o
    exact regLookup_insert reg o.pid _

/-- C10 witness: a concrete registry with one exited tracked process is
untouched by `check_background`, the process is reported as EXITED, and
`stop_background` removes it. -/
theorem c10_exited_process_stays_tracked_witness :
    (check_background [(5, exitedProc)] 5 4).1 =
      .info ("EXITED (code: ".data ++ (toString (3 : Int)).data ++ ")".data)
        (4 - 1) (exitedProc.outputBuf.drop (exitedProc.outputBuf.length - 50)) ∧
    5 ∈ (list_background [(5, exitedProc)] 4).map Prod.fst ∧
    regLookup (stop_background [(5, exitedProc)] 5).2 5 = none := by
  have h := (c10_exited_process_stays_tracked [(5, exitedProc)] 5 4).2.1
    exitedProc rfl rfl
  exact ⟨by simpa [exitedProc] using h.1, h.2.1, h.2.2⟩

/-- C7: hard trimming of the conversation history is idempotent:
applying `_trim_history` (agent.py lines 65-72) to an already-trimmed
history yields the same message sequence.  A trimmed history has
exactly 31 messages (first message, synthetic marker, most recent 29),
and re-trimming it keeps its first message, re-inserts the marker in
place, and keeps the same final 29. -/
theorem c7_trim_history_idempotent (history : List Message) :
    _trim_history (_trim_history history) = _trim_history history := by
  by_cases h : history.length ≤ MAX_HISTORY_MESSAGES
  · have hh : _trim_history history = history := by
      rw [_trim_history, if_pos h]
    rw [hh, hh]
  · have hlen : 31 ≤ history.length := by
      simp only [MAX_HISTORY_MESSAGES] at h; omega
    obtain ⟨a, tl, rfl⟩ : ∃ a tl, history = a :: tl := by
      cases history with
      | nil => simp at hlen
      | cons a tl => exact ⟨a, tl, rfl⟩
    have htake : (a :: tl).take 1 = [a] := by simp
    have ht : _trim_history (a :: tl) =
        [a] ++ trimMarker ::
          (a :: tl).drop ((a :: tl).length - (MAX_HISTORY_MESSAGES - 1)) := by
      rw [_trim_history, if_neg h, htake]
    have hdroplen :
        ((a :: tl).drop ((a :: tl).length - (MAX_HISTORY_MESSAGES - 1))).length = 29 := by
      rw [List.length_drop]
      simp only [MAX_HISTORY_MESSAGES] at hlen ⊢
      omega
    have hlen2 :
        ([a] ++ trimMarker ::
          (a :: tl).drop ((a :: tl).length - (MAX_HISTORY_MESSAGES - 1))).length = 31 := by
      simp [MAX_HISTORY_MESSAGES] at hlen ⊢
      omega
    rw [ht, _trim_history, if_neg (by rw [hlen2]; simp [MAX_HISTORY_MESSAGES])]
    rw [hlen2]
    simp [MAX_HISTORY_MESSAGES]

theorem enumFrom_map_cutoff (g : Message → Message) (L : Nat) :
    ∀ (h : List Message) (n : Nat),
      ((List.enumFrom n h).map fun im =>
          if L ≤ im.1 + 4 then im.2 else g im.2) =
        (h.take (L - 4 - n)).map g ++ h.drop (L - 4 - n) := by
  intro h
  induction h with
  | nil => intro n; simp
  | cons a tl ih =>
    intro n
    simp only [List.enumFrom, List.map_cons]
    by_cases hc : L ≤ n + 4
    · have hz : L - 4 - n = 0 := by omega
      have hz1 : L - 4 - (n + 1) = 0 := by omega
      rw [if_pos hc, hz]
      have := ih (n + 1)
      rw [hz1] at this
      simp only [List.take_zero, List.map_nil, List.nil_append, List.drop_zero] at this ⊢
      rw [this]
    · have hs : L - 4 - n = (L - 4 - (n + 1)) + 1 := by omega
      rw [if_neg hc, hs]
      have := ih (n + 1)
      simp only [List.take_succ_cons, List.map_cons, List.drop_succ_cons]
      rw [this]
      simp

/-- C8: soft truncation (`_truncate_tool_results`, agent.py lines
81-155, applied to the outbound copy at line 246) produces a list of
the same length in which the most recent 4 messages are kept verbatim
— equal to the corresponding stored messages, content, tool calls and
serialized arguments included — and every older message is exactly the
per-message compaction `_compactOldMessage` of the stored one; the
stored history itself is passed to the function unchanged (the source
copies each dict before modification).  This holds for every JSON
encode/decode pair. -/
theorem c8_soft_truncation_outbound_only
    (jloads : List Char → Option JsonArgs) (jdumps : JsonArgs → List Char)
    (h : List Message) :
    (_truncate_tool_results jloads jdumps h).length = h.length ∧
    (_truncate_tool_results jloads jdumps h).drop (h.length - 4) =
      h.drop (h.length - 4) ∧
    (_truncate_tool_results jloads jdumps h).take (h.length - 4) =
      (h.take (h.length - 4)).map (_compactOldMessage jloads jdumps) := by
  have hsplit : _truncate_tool_results jloads jdumps h =
      (h.take (h.length - 4)).map (_compactOldMessage jloads jdumps) ++
        h.drop (h.length - 4) := by
    rw [_truncate_tool_results, List.enum]
    have := enumFrom_map_cutoff (_compactOldMessage jloads jdumps) h.length h 0
    simpa using this
  have hlentake : ((h.take (h.length - 4)).map
      (_compactOldMessage jloads jdumps)).length = h.length - 4 := by
    simp only [List.length_map, List.length_take]
    omega
  refine ⟨?_, ?_, ?_⟩
  · rw [hsplit]
    simp only [List.length_append, List.length_map, List.length_take, List.length_drop]
    omega
  · rw [hsplit, List.drop_left' hlentake]
  · rw [hsplit, List.take_left' hlentake]

theorem splitOnChar_eq_single (sep : Char) :
    ∀ l : List Char, (∀ x ∈ l, x ≠ sep) → splitOnChar sep l = [l] := by
  intro l
  induction l with
  | nil => intro _; rfl
  | cons c rest ih =>
    intro h
    have hc : c ≠ sep := h c (by simp)
    have hrest := ih (fun x hx => h x (by simp [hx]))
    rw [splitOnChar, hrest]
    simp [hc]

theorem pyIn_head_ne_replicate (p : Char) (pt : List Char) (c : Char)
    (hpc : p ≠ c) :
    ∀ (n : Nat) (t : List Char),
      pyIn (p :: pt) (List.replicate n c ++ t) = pyIn (p :: pt) t := by
  intro n
  induction n with
  | zero => intro t; simp
  | succ m ih =>
    intro t
    rw [List.replicate_succ, List.cons_append, pyIn]
    have hpre : (p :: pt).isPrefixOf (c :: (List.replicate m c ++ t)) = false := by
      simp [List.isPrefixOf, hpc]
    rw [hpre, Bool.false_or, ih]

/-- C9 counterexample: the claim says every large output is capped by
keeping head and tail slices with an omitted-lines marker between
them.  A 4001-character single-line output exceeds the 4000-character
threshold but has only 1 line (≤ 40), so the source (tools.py lines
229-230) instead cuts it to its first 4000 characters plus a
`...(output truncated)` note — no head/tail slices, no omitted-lines
marker anywhere in the result. -/
theorem c9_large_single_line_no_marker :
    run_command (.completed bigOutput [] 0) =
      List.replicate 4000 'a' ++ "\n...(output truncated)".data ∧
    pyIn " lines omitted) ".data (run_command (.completed bigOutput [] 0)) =
      false := by
  have hlen : bigOutput.length = 4001 := by
    rw [bigOutput, List.length_replicate]
  have hne : bigOutput ≠ [] := by
    intro hb
    have := congrArg List.length hb
    rw [hlen] at this
    simp at this
  have hmerge : _mergedStreams bigOutput [] = bigOutput := by
    simp [_mergedStreams, hne]
  have hexit : _withExitCode 0 bigOutput = bigOutput := by
    simp [_withExitCode]
  have hnoout : _orNoOutput bigOutput = bigOutput := by
    simp [_orNoOutput, hne]
  have hsplit : splitOnChar '\n' bigOutput = [bigOutput] := by
    apply splitOnChar_eq_single
    intro x hx
    rw [bigOutput] at hx
    have hxa := (List.mem_replicate.mp hx).2
    subst hxa
    decide
  have htake : bigOutput.take 4000 = List.replicate 4000 'a' := by
    rw [bigOutput, List.take_replicate]
    norm_num
  have hcap : _capCommandOutput bigOutput =
      List.replicate 4000 'a' ++ "\n...(output truncated)".data := by
    rw [_capCommandOutput, if_pos (by rw [hlen]; norm_num), hsplit]
    rw [if_neg (by simp), htake]
  have hrun : run_command (.completed bigOutput [] 0) =
      List.replicate 4000 'a' ++ "\n...(output truncated)".data := by
    rw [run_command, hmerge, hexit, hnoout, hcap]
  refine ⟨hrun, ?_⟩
  rw [hrun]
  have hpat : " lines omitted) ".data = ' ' :: "lines omitted) ".data := rfl
  rw [hpat]
  have := pyIn_head_ne_replicate ' ' "lines omitted) ".data 'a' (by decide)
    4000 "\n...(output truncated)".data
  rw [this]
  decide

/-- C9 (amended): `run_command` (tools.py lines 210-235) returns the
merged stdout and stderr text (stderr appended after a newline when
both are present), appends the exit code to the output exactly when
the exit code is non-zero, reports a timeout as a distinct error-kind
message, and reduces every output longer than 4000 characters: to the
first 15 and last 15 lines with an omitted-lines marker between them
when it has more than 40 lines, and otherwise to its first 4000
characters plus a truncation note. -/
theorem c9_run_command_output_shape (stdout stderr output : List Char) (rc : Int) :
    (run_command .timeout = timeoutMessage ∧
      "Error: ".data.isPrefixOf timeoutMessage = true) ∧
    (run_command (.completed stdout stderr rc) =
      _capCommandOutput (_orNoOutput (_withExitCode rc (_mergedStreams stdout stderr)))) ∧
    (_mergedStreams stdout stderr =
      if stderr = [] then stdout
      else if stdout = [] then stderr
      else stdout ++ '\n' :: stderr) ∧
    (rc ≠ 0 ↔ _withExitCode rc output ≠ output) ∧
    (output.length ≤ 4000 → _capCommandOutput output = output) ∧
    (output.length > 4000 → (splitOnChar '\n' output).length ≤ 40 →
      _capCommandOutput output =
        output.take 4000 ++ "\n...(output truncated)".data) ∧
    (output.length > 4000 → (splitOnChar '\n' output).length > 40 →
      _capCommandOutput output =
        joinWith "\n".data ((splitOnChar '\n' output).take 15) ++
          "\n... (".data ++ (toString ((splitOnChar '\n' output).length - 30)).data ++
          " lines omitted) ...\n".data ++
          joinWith "\n".data
            ((splitOnChar '\n' output).drop ((splitOnChar '\n' output).length - 15))) := by
  refine ⟨⟨rfl, by decide⟩, rfl, ?_, ?_, ?_, ?_, ?_⟩
  · by_cases he : stderr = []
    · by_cases ho : stdout = [] <;> simp [_mergedStreams, he, ho]
    · by_cases ho : stdout = [] <;> simp [_mergedStreams, he, ho]
  · constructor
    · intro hrc
      rw [_withExitCode, if_pos hrc]
      intro heq
      have := congrArg List.length heq
      simp [_exitSuffix] at this
    · intro hne hrc
      rw [_withExitCode, if_neg (by simp [hrc])] at hne
      exact hne rfl
  · intro hle
    rw [_capCommandOutput, if_neg (by omega)]
  · intro hgt hlines
    rw [_capCommandOutput, if_pos hgt, if_neg (by omega)]
  · intro hgt hlines
    rw [_capCommandOutput, if_pos hgt, if_pos hlines]

/-- C9 witness: concrete small outputs exercising the amended claim:
a non-zero exit code changes the output, and a short output is
returned uncapped. -/
theorem c9_run_command_output_shape_witness :
    ((2 : Int) ≠ 0 ↔ _withExitCode 2 "hi".data ≠ "hi".data) ∧
    _capCommandOutput "hi".data = "hi".data :=
  ⟨(c9_run_command_output_shape "hi".data [] "hi".data 2).2.2.2.1,
   (c9_run_command_output_shape "hi".data [] "hi".data 2).2.2.2.2.1 (by decide)⟩
